import Mathlib

/-!
Verification of the VSM (value-stream-mapping) engine: a shallow embedding
of `src/engine.py` (v3).  Python floats are modelled as rationals (ℚ); the
`Optional[float]` fields become `Option ℚ`; the per-step `answers` dict is
the tri-state `String → Option Bool`.  `round(x, 2)` is modelled as
`round2` below; Python rounds halves to even while `round2` rounds halves
up, a difference only visible at exact half-cent ties, on which no property
below depends.
-/

namespace VSM

/-- Embeds `ProcessStep` (engine.py lines 6–27): one station's measured
attributes.  A missing numeric field is `none`; defaults follow the dataclass. -/
structure ProcessStep where
  id : String
  name : String := ""
  process_type : String := "Manual"
  ct_sec : Option ℚ := none
  units_per_period : Option ℚ := none
  wip_units_in : Option ℚ := none
  defect_pct : Option ℚ := none
  rework_pct : Option ℚ := none
  downtime_pct : Option ℚ := none
  safety_incidents : Option ℤ := none
  push_pull : Option String := none
  co_freq_per_shift : Option ℚ := none
  co_time_min : Option ℚ := none
  operators : Option ℤ := none
  distance_m : Option ℚ := none
  layout_moves : Option ℤ := none
  walk_m_per_unit : Option ℚ := none
  approval_delays_min : Option ℚ := none
  waiting_starved_pct : Option ℚ := none
  answers : String → Option Bool := fun _ => none

/-- Python `round(x, 2)`: two-decimal rounding (ties excepted, see header). -/
def round2 (x : ℚ) : ℚ := (round (x * 100) : ℤ) / 100

/-- `VSMMath.infer_throughput` (engine.py 36–40): `0` unless the bottleneck
cycle time is truthy and positive, else its reciprocal. -/
def infer_throughput (ct_bottleneck_sec : ℚ) : ℚ :=
  if ct_bottleneck_sec = 0 ∨ ct_bottleneck_sec ≤ 0 then 0 else 1 / ct_bottleneck_sec

/-- `VSMMath.waiting_time_from_wip` (engine.py 42–47). -/
def waiting_time_from_wip (wip_units ct_bottleneck_sec : ℚ) : ℚ :=
  let th := infer_throughput ct_bottleneck_sec
  if th ≤ 0 ∨ wip_units = 0 then 0 else wip_units / th

/-- The downtime divisor of `VSMMath.ct_effective` (engine.py 55):
`max(1e-6, 1 - downtime_pct/100)`. -/
def dtDivisor (downtime_pct : ℚ) : ℚ := max (1 / 1000000) (1 - downtime_pct / 100)

/-- The changeover-loss term of `VSMMath.ct_effective` (engine.py 56–58):
nonzero only when all three inputs are truthy. -/
def coLoss (co_time_min co_freq_per_shift available_time_sec : ℚ) : ℚ :=
  if co_time_min ≠ 0 ∧ co_freq_per_shift ≠ 0 ∧ available_time_sec ≠ 0 then
    co_time_min * 60 * co_freq_per_shift / available_time_sec
  else 0

/-- `VSMMath.ct_effective` (engine.py 49–59).  The callers always pass a
non-`None` downtime (`s.downtime_pct or 0`), so the `is not None` branch of
the source always applies the downtime factor here. -/
def ct_effective (ct_sec downtime_pct co_time_min co_freq_per_shift available_time_sec : ℚ) : ℚ :=
  if ct_sec = 0 then 0
  else ct_sec * (1 / dtDivisor downtime_pct)
        + coLoss co_time_min co_freq_per_shift available_time_sec

/-- One entry of a waste category's `questions` list: `{id, weight}` with
weight defaulting to 1 (`q.get("weight", 1)`). -/
structure Question where
  id : String
  weight : ℚ := 1
deriving DecidableEq

/-- The rules mapping consumed by `score_wastes`: waste-category name to its
question list (`cfg.get("questions", [])` flattened into the entry). -/
structure Rules where
  wastes : List (String × List Question)

/-- The tri-state outcome of resolving one question inside the
`score_wastes` loop (engine.py 73–86): the boolean finally passed to
`bool(val)`, whether the auto-inference branch fired (`measured_flags`),
and whether an explicit answer was present (`answered_flags`). -/
structure QRes where
  val : Bool
  measured : Bool
  answered : Bool
deriving DecidableEq

/-- The body of the `score_wastes` question loop (engine.py 74–85): an
explicit answer is used as-is; on `None` the sample-metric auto-inference
runs (defects on `defect_pct ≥ 3`, waiting on `waiting_starved_pct ≥ 10`,
inventory on `wip_units_in > 0`); otherwise the value stays falsy. -/
def resolveQ (wasteName : String) (step : ProcessStep) (qid : String) : QRes :=
  match step.answers qid with
  | some v => ⟨v, false, true⟩
  | none =>
    if wasteName = "defects" ∧ 3 ≤ step.defect_pct.getD 0 then ⟨true, true, false⟩
    else if wasteName = "waiting" ∧ 10 ≤ step.waiting_starved_pct.getD 0 then ⟨true, true, false⟩
    else if wasteName = "inventory" ∧ 0 < step.wip_units_in.getD 0 then ⟨true, true, false⟩
    else ⟨false, false, false⟩

/-- `sum([q.get("weight",1) for q in qlist]) or 1` (engine.py 70): the weight
sum, with a falsy (zero) sum replaced by 1. -/
def totalWeight (qlist : List Question) : ℚ :=
  let s := (qlist.map (fun q => q.weight)).sum
  if s = 0 then 1 else s

/-- The `true_weight` accumulator of the loop (engine.py 71, 86). -/
def trueWeight (step : ProcessStep) (wasteName : String) (qlist : List Question) : ℚ :=
  (qlist.map (fun q => if (resolveQ wasteName step q.id).val then q.weight else 0)).sum

/-- The `measured_flags` accumulator (engine.py 72, 79, 81, 83). -/
def measuredCount (step : ProcessStep) (wasteName : String) (qlist : List Question) : ℕ :=
  qlist.countP (fun q => (resolveQ wasteName step q.id).measured)

/-- The `answered_flags` accumulator (engine.py 72, 85). -/
def answeredCount (step : ProcessStep) (wasteName : String) (qlist : List Question) : ℕ :=
  qlist.countP (fun q => (resolveQ wasteName step q.id).answered)

/-- `score_val = min(5.0, round(true_weight * (5.0/total_weight), 2))`
(engine.py 87). -/
def categoryScore (step : ProcessStep) (wasteName : String) (qlist : List Question) : ℚ :=
  min 5 (round2 (trueWeight step wasteName qlist * (5 / totalWeight qlist)))

/-- The confidence tier (engine.py 89). -/
def categoryConf (step : ProcessStep) (wasteName : String) (qlist : List Question) : String :=
  if 0 < measuredCount step wasteName qlist ∧ answeredCount step wasteName qlist = 0 then "High"
  else if 0 < measuredCount step wasteName qlist then "Medium"
  else "Low"

/-- `WasteScores` (engine.py 29–33), with the result dicts as association lists. -/
structure WasteScores where
  step_id : String
  scores : List (String × ℚ)
  confidence : List (String × String)
deriving DecidableEq

/-- `score_wastes` (engine.py 65–90). -/
def score_wastes (step : ProcessStep) (rules : Rules) : WasteScores :=
  { step_id := step.id
    scores := rules.wastes.map (fun p => (p.1, categoryScore step p.1 p.2))
    confidence := rules.wastes.map (fun p => (p.1, categoryConf step p.1 p.2)) }

/-- One value of the `by_step` dict of `compute_lead_time` (engine.py 105). -/
structure StepTiming where
  ct_eff_sec : ℚ
  waiting_sec : ℚ
  rework_sec : ℚ
  total_sec : ℚ
deriving DecidableEq

/-- The result dict of `compute_lead_time` (engine.py 94, 107). -/
structure LeadTimeResult where
  lead_time_sec : ℚ
  by_step : List (String × StepTiming)
  ct_bottleneck_sec : ℚ
deriving DecidableEq

/-- One entry of `ct_eff_list` (engine.py 97–98): the effective cycle time,
falling back to the raw `ct_sec` (or 0) when non-positive. -/
def fallbackEff (s : ProcessStep) (available_time_sec : ℚ) : ℚ :=
  let e := ct_effective (s.ct_sec.getD 0) (s.downtime_pct.getD 0) (s.co_time_min.getD 0)
            (s.co_freq_per_shift.getD 0) available_time_sec
  if 0 < e then e else s.ct_sec.getD 0

/-- `ct_eff_list` (engine.py 95–98). -/
def effList (steps : List ProcessStep) (available_time_sec : ℚ) : List ℚ :=
  steps.map (fun s => fallbackEff s available_time_sec)

/-- Python's `max` over a list, 0 on the empty list (engine.py 99). -/
def pyMax : List ℚ → ℚ
  | [] => 0
  | x :: xs => xs.foldl max x

/-- The per-step waiting term (engine.py 102). -/
def stepWaiting (s : ProcessStep) (bn : ℚ) : ℚ :=
  waiting_time_from_wip (s.wip_units_in.getD 0) bn

/-- The per-step rework term (engine.py 103). -/
def stepRework (s : ProcessStep) : ℚ :=
  s.rework_pct.getD 0 / 100 * s.ct_sec.getD 0

/-- The accumulation loop of `compute_lead_time` (engine.py 100–106),
carrying the running `lead_time` and the `by_step` entries. -/
def leadLoop (bn : ℚ) :
    List (ProcessStep × ℚ) → ℚ → List (String × StepTiming) → ℚ × List (String × StepTiming)
  | [], acc, bys => (acc, bys)
  | (s, e) :: rest, acc, bys =>
    let waiting := stepWaiting s bn
    let rework := stepRework s
    let total := e + waiting + rework
    leadLoop bn rest (acc + total)
      (bys ++ [(s.id, ⟨round2 e, round2 waiting, round2 rework, round2 total⟩)])

/-- `compute_lead_time` (engine.py 92–107). -/
def compute_lead_time (steps : List ProcessStep) (available_time_sec : ℚ) : LeadTimeResult :=
  if steps.isEmpty then ⟨0, [], 0⟩
  else
    let l := effList steps available_time_sec
    let bn := pyMax l
    let r := leadLoop bn (steps.zip l) 0 []
    ⟨round2 r.1, r.2, round2 bn⟩

/-- Spec-side (§4.1 steps 3–6): the full-precision per-step totals
`effective + waiting + rework`, against which the code's loop is checked. -/
def rawTotals (steps : List ProcessStep) (available_time_sec : ℚ) : List ℚ :=
  let bn := pyMax (effList steps available_time_sec)
  steps.map (fun s => fallbackEff s available_time_sec + stepWaiting s bn + stepRework s)

/-- Spec-side (§4.1, rounding rule): the `by_step` table recomputed directly
from the component formulas, each field rounded to two decimals. -/
def specByStep (steps : List ProcessStep) (available_time_sec : ℚ) :
    List (String × StepTiming) :=
  let bn := pyMax (effList steps available_time_sec)
  steps.map (fun s =>
    (s.id, ⟨round2 (fallbackEff s available_time_sec), round2 (stepWaiting s bn),
            round2 (stepRework s),
            round2 (fallbackEff s available_time_sec + stepWaiting s bn + stepRework s)⟩))

/-! ### Helper lemmas -/

lemma round_mono_q {x y : ℚ} (h : x ≤ y) : round x ≤ round y := by
  rw [round_eq, round_eq]
  exact Int.floor_le_floor (by linarith)

lemma round2_mono {x y : ℚ} (h : x ≤ y) : round2 x ≤ round2 y := by
  unfold round2
  have h1 : round (x * 100) ≤ round (y * 100) := round_mono_q (by linarith)
  have h2 : ((round (x * 100) : ℤ) : ℚ) ≤ ((round (y * 100) : ℤ) : ℚ) := by exact_mod_cast h1
  linarith

lemma round2_zero : round2 0 = 0 := by norm_num [round2]

lemma round2_nonneg {x : ℚ} (h : 0 ≤ x) : 0 ≤ round2 x := by
  have := round2_mono h
  rwa [round2_zero] at this

lemma infer_throughput_of_pos {ctb : ℚ} (h : 0 < ctb) : infer_throughput ctb = 1 / ctb := by
  unfold infer_throughput
  rw [if_neg]
  push_neg
  exact ⟨ne_of_gt h, h⟩

lemma infer_throughput_of_nonpos {ctb : ℚ} (h : ctb ≤ 0) : infer_throughput ctb = 0 := by
  unfold infer_throughput
  rw [if_pos (Or.inr h)]

/-! ### C2: waiting time from WIP -/

/-- C2.  The per-step waiting time equals `wip_units_in / throughput` with
`throughput = 1/bottleneck` when the bottleneck is positive; a zero
bottleneck or zero WIP yields waiting 0; and at WIP 400 and bottleneck
4200 s the waiting time is 400 × 4200 = 1 680 000 s. -/
theorem c2_waiting_time_from_wip (wip ctb : ℚ) (h : 0 < ctb) (hw : wip ≠ 0) :
    infer_throughput ctb = 1 / ctb
    ∧ waiting_time_from_wip wip ctb = wip / infer_throughput ctb
    ∧ waiting_time_from_wip wip 0 = 0
    ∧ waiting_time_from_wip 0 ctb = 0
    ∧ waiting_time_from_wip 400 4200 = 1680000 := by
  have hth : infer_throughput ctb = 1 / ctb := infer_throughput_of_pos h
  have hpos : 0 < infer_throughput ctb := by rw [hth]; positivity
  refine ⟨hth, ?_, ?_, ?_, ?_⟩
  · unfold waiting_time_from_wip
    rw [if_neg]
    push_neg
    exact ⟨hpos, hw⟩
  · unfold waiting_time_from_wip
    rw [if_pos (Or.inl (le_of_eq (infer_throughput_of_nonpos le_rfl)))]
  · unfold waiting_time_from_wip
    rw [if_pos (Or.inr rfl)]
  · norm_num [waiting_time_from_wip, infer_throughput]

/-- Witness for C2 at WIP 400, bottleneck 4200. -/
theorem c2_witness :
    infer_throughput 4200 = 1 / 4200
    ∧ waiting_time_from_wip 400 4200 = 400 / infer_throughput 4200
    ∧ waiting_time_from_wip 400 0 = 0
    ∧ waiting_time_from_wip 0 4200 = 0
    ∧ waiting_time_from_wip 400 4200 = 1680000 :=
  c2_waiting_time_from_wip 400 4200 (by norm_num) (by norm_num)

/-! ### C7: no division by zero -/

/-- C7.  The lead-time math never divides by zero: the downtime divisor is
floored at the epsilon 1e-6 (so `downtime_pct ≥ 100` is safe), the
throughput reciprocal is not taken for a non-positive bottleneck, and the
changeover term vanishes when `available_time_sec` is zero. -/
theorem c7_no_division_by_zero (dt ctb co cf : ℚ) (h : ctb ≤ 0) :
    (1 / 1000000 : ℚ) ≤ dtDivisor dt
    ∧ 0 < dtDivisor dt
    ∧ infer_throughput ctb = 0
    ∧ coLoss co cf 0 = 0 := by
  have hle : (1 / 1000000 : ℚ) ≤ dtDivisor dt := le_max_left _ _
  refine ⟨hle, lt_of_lt_of_le (by norm_num) hle, infer_throughput_of_nonpos h, ?_⟩
  unfold coLoss
  rw [if_neg]
  intro hc
  exact hc.2.2 rfl

/-- Witness for C7 at `downtime_pct = 150`, bottleneck `-3`, changeover 5 min
twice a shift. -/
theorem c7_witness :
    (1 / 1000000 : ℚ) ≤ dtDivisor 150
    ∧ 0 < dtDivisor 150
    ∧ infer_throughput (-3) = 0
    ∧ coLoss 5 2 0 = 0 :=
  c7_no_division_by_zero 150 (-3) 5 2 (by norm_num)

/-! ### C1 / C9: lead time and bottleneck -/

lemma leadLoop_spec (bn : ℚ) (l : List (ProcessStep × ℚ)) (acc : ℚ)
    (bys : List (String × StepTiming)) :
    leadLoop bn l acc bys =
      (acc + (l.map (fun p => p.2 + stepWaiting p.1 bn + stepRework p.1)).sum,
       bys ++ l.map (fun p =>
        (p.1.id, ⟨round2 p.2, round2 (stepWaiting p.1 bn), round2 (stepRework p.1),
                  round2 (p.2 + stepWaiting p.1 bn + stepRework p.1)⟩))) := by
  induction l generalizing acc bys with
  | nil => simp [leadLoop]
  | cons hd tl ih =>
    obtain ⟨s, e⟩ := hd
    simp only [leadLoop, ih, List.map_cons, List.sum_cons, Prod.mk.injEq]
    constructor
    · ring
    · simp

lemma zip_self_map (f : ProcessStep → ℚ) (l : List ProcessStep) :
    l.zip (l.map f) = l.map (fun s => (s, f s)) := by
  induction l with
  | nil => rfl
  | cons hd tl ih => simp [ih]

/-- C1.  Each reported `total_sec` is the two-decimal rounding of the step's
effective cycle time plus waiting time plus rework time (and `by_step`
carries the roundings of those components), while `lead_time_sec` is the
two-decimal rounding of the full-precision sum of the per-step totals. -/
theorem c1_lead_time_decomposition (steps : List ProcessStep) (available_time_sec : ℚ) :
    (compute_lead_time steps available_time_sec).lead_time_sec
        = round2 (rawTotals steps available_time_sec).sum
    ∧ (compute_lead_time steps available_time_sec).by_step
        = specByStep steps available_time_sec := by
  cases steps with
  | nil =>
    constructor
    · simp [compute_lead_time, rawTotals, round2_zero]
    · simp [compute_lead_time, specByStep]
  | cons s0 rest =>
    simp only [compute_lead_time, rawTotals, specByStep, effList, List.isEmpty_cons,
      Bool.false_eq_true, if_false, zip_self_map, leadLoop_spec, List.map_map,
      Function.comp, zero_add, List.nil_append]
    exact ⟨rfl, rfl⟩

/-- C9.  The reported bottleneck is the two-decimal rounding of the maximum,
over the steps, of the effective cycle time with the raw-`ct_sec` (or 0)
fallback for a non-positive effective time; the empty sequence yields the
all-zero result. -/
theorem c9_bottleneck (steps : List ProcessStep) (available_time_sec : ℚ) (s : ProcessStep) :
    compute_lead_time [] available_time_sec = ⟨0, [], 0⟩
    ∧ (compute_lead_time steps available_time_sec).ct_bottleneck_sec
        = round2 (pyMax (effList steps available_time_sec))
    ∧ fallbackEff s available_time_sec
        = (if 0 < ct_effective (s.ct_sec.getD 0) (s.downtime_pct.getD 0) (s.co_time_min.getD 0)
              (s.co_freq_per_shift.getD 0) available_time_sec
           then ct_effective (s.ct_sec.getD 0) (s.downtime_pct.getD 0) (s.co_time_min.getD 0)
              (s.co_freq_per_shift.getD 0) available_time_sec
           else s.ct_sec.getD 0)
    ∧ pyMax ([] : List ℚ) = 0 := by
  refine ⟨rfl, ?_, rfl, rfl⟩
  cases steps with
  | nil => simp [compute_lead_time, effList, pyMax, round2_zero]
  | cons s0 rest =>
    unfold compute_lead_time
    rw [if_neg (by simp)]

/-! ### C4: confidence tiers -/

/-- C4.  The confidence tier is "High" exactly when some question was
auto-inferred from a metric and none was answered explicitly, "Medium"
exactly when both kinds of evidence are present, and "Low" exactly when no
measured evidence exists; `score_wastes` assigns it per category by this
(deterministic) rule. -/
theorem c4_confidence_tiers (step : ProcessStep) (rules : Rules)
    (w : String) (qs : List Question) :
    (score_wastes step rules).confidence
        = rules.wastes.map (fun p => (p.1, categoryConf step p.1 p.2))
    ∧ (categoryConf step w qs = "High"
        ↔ 0 < measuredCount step w qs ∧ answeredCount step w qs = 0)
    ∧ (categoryConf step w qs = "Medium"
        ↔ 0 < measuredCount step w qs ∧ 0 < answeredCount step w qs)
    ∧ (categoryConf step w qs = "Low" ↔ measuredCount step w qs = 0) := by
  refine ⟨rfl, ?_, ?_, ?_⟩ <;> unfold categoryConf <;>
    rcases Nat.eq_zero_or_pos (measuredCount step w qs) with hm | hm <;>
    rcases Nat.eq_zero_or_pos (answeredCount step w qs) with ha | ha <;>
    simp [hm, ha, Nat.pos_iff_ne_zero.1, ne_of_gt]

/-! ### C8: explicit answers override auto-inference -/

/-- C8.  An explicit boolean answer is used as-is (so an explicit `false`
contributes nothing even when the metric passes its threshold, and the
question counts as answered, not measured); only an unset answer triggers
the metric auto-inference, with thresholds `defect_pct ≥ 3`,
`waiting_starved_pct ≥ 10` and `wip_units_in > 0`. -/
theorem c8_explicit_answer_overrides (w : String) (step s2 : ProcessStep) (qid : String)
    (b : Bool) (h : step.answers qid = some b) (h2 : s2.answers qid = none) :
    resolveQ w step qid = ⟨b, false, true⟩
    ∧ resolveQ "defects" s2 qid
        = ⟨decide (3 ≤ s2.defect_pct.getD 0), decide (3 ≤ s2.defect_pct.getD 0), false⟩
    ∧ resolveQ "waiting" s2 qid
        = ⟨decide (10 ≤ s2.waiting_starved_pct.getD 0),
           decide (10 ≤ s2.waiting_starved_pct.getD 0), false⟩
    ∧ resolveQ "inventory" s2 qid
        = ⟨decide (0 < s2.wip_units_in.getD 0), decide (0 < s2.wip_units_in.getD 0), false⟩ := by
  refine ⟨?_, ?_, ?_, ?_⟩
  · unfold resolveQ
    rw [h]
  · unfold resolveQ
    rw [h2]
    by_cases hd : (3 : ℚ) ≤ s2.defect_pct.getD 0 <;> simp [hd]
  · unfold resolveQ
    rw [h2]
    by_cases hd : (10 : ℚ) ≤ s2.waiting_starved_pct.getD 0 <;> simp [hd]
  · unfold resolveQ
    rw [h2]
    by_cases hd : (0 : ℚ) < s2.wip_units_in.getD 0 <;> simp [hd]

/-- Concrete step for the C8 witness: question `d1` answered `false`
explicitly while the defect metric is far over threshold. -/
def w8a : ProcessStep :=
  { id := "P1", defect_pct := some 99
    answers := fun q => if q = "d1" then some false else none }

/-- Concrete step for the C8 witness: no answers, metrics over threshold. -/
def w8b : ProcessStep :=
  { id := "P2", defect_pct := some 5, waiting_starved_pct := some 20
    wip_units_in := some 3 }

/-- Witness for C8 on `w8a`/`w8b` at question `d1`. -/
theorem c8_witness :
    resolveQ "defects" w8a "d1" = ⟨false, false, true⟩
    ∧ resolveQ "defects" w8b "d1"
        = ⟨decide (3 ≤ w8b.defect_pct.getD 0), decide (3 ≤ w8b.defect_pct.getD 0), false⟩
    ∧ resolveQ "waiting" w8b "d1"
        = ⟨decide (10 ≤ w8b.waiting_starved_pct.getD 0),
           decide (10 ≤ w8b.waiting_starved_pct.getD 0), false⟩
    ∧ resolveQ "inventory" w8b "d1"
        = ⟨decide (0 < w8b.wip_units_in.getD 0), decide (0 < w8b.wip_units_in.getD 0), false⟩ :=
  c8_explicit_answer_overrides "defects" w8a w8b "d1" false rfl rfl

/-! ### C5: score bounds and confidence range -/

lemma totalWeight_pos (qs : List Question) (h : ∀ q ∈ qs, 0 ≤ q.weight) :
    0 < totalWeight qs := by
  unfold totalWeight
  by_cases h0 : (qs.map (fun q => q.weight)).sum = 0
  · simp [h0]
  · rw [if_neg h0]
    refine lt_of_le_of_ne ?_ (Ne.symm h0)
    refine List.sum_nonneg ?_
    intro x hx
    obtain ⟨q, hq, rfl⟩ := List.mem_map.1 hx
    exact h q hq

lemma trueWeight_nonneg (step : ProcessStep) (w : String) (qs : List Question)
    (h : ∀ q ∈ qs, 0 ≤ q.weight) : 0 ≤ trueWeight step w qs := by
  unfold trueWeight
  refine List.sum_nonneg ?_
  intro x hx
  obtain ⟨q, hq, rfl⟩ := List.mem_map.1 hx
  split
  · exact h q hq
  · exact le_refl 0

lemma categoryScore_nonneg (step : ProcessStep) (w : String) (qs : List Question)
    (h : ∀ q ∈ qs, 0 ≤ q.weight) : 0 ≤ categoryScore step w qs := by
  unfold categoryScore
  refine le_min (by norm_num) (round2_nonneg ?_)
  exact mul_nonneg (trueWeight_nonneg step w qs h)
    (div_nonneg (by norm_num) (le_of_lt (totalWeight_pos qs h)))

lemma categoryScore_le_five (step : ProcessStep) (w : String) (qs : List Question) :
    categoryScore step w qs ≤ 5 := min_le_left _ _

lemma categoryConf_cases (step : ProcessStep) (w : String) (qs : List Question) :
    categoryConf step w qs = "Low" ∨ categoryConf step w qs = "Medium"
    ∨ categoryConf step w qs = "High" := by
  unfold categoryConf
  split_ifs <;> simp

/-- C5.  With nonnegative question weights every per-category score lies in
[0, 5] and every confidence value is one of "Low", "Medium", "High". -/
theorem c5_score_bounds (step : ProcessStep) (rules : Rules)
    (h : ∀ p ∈ rules.wastes, ∀ q ∈ p.2, 0 ≤ q.weight) :
    (∀ e ∈ (score_wastes step rules).scores, 0 ≤ e.2 ∧ e.2 ≤ 5)
    ∧ ∀ e ∈ (score_wastes step rules).confidence,
        e.2 = "Low" ∨ e.2 = "Medium" ∨ e.2 = "High" := by
  constructor
  · intro e he
    obtain ⟨p, hp, rfl⟩ := List.mem_map.1 he
    exact ⟨categoryScore_nonneg step p.1 p.2 (h p hp), categoryScore_le_five step p.1 p.2⟩
  · intro e he
    obtain ⟨p, hp, rfl⟩ := List.mem_map.1 he
    exact categoryConf_cases step p.1 p.2

/-- Concrete step for the C5 witness. -/
def s5 : ProcessStep :=
  { id := "P1", defect_pct := some 5, waiting_starved_pct := some 12
    answers := fun q => if q = "w1" then some true else none }

/-- Concrete rules for the C5 witness. -/
def r5 : Rules :=
  ⟨[("defects", [⟨"d1", 2⟩, ⟨"d2", 1⟩]), ("waiting", [⟨"w1", 1⟩]), ("ghost", [])]⟩

/-- Witness for C5 on `s5`/`r5`. -/
theorem c5_witness :
    (∀ e ∈ (score_wastes s5 r5).scores, 0 ≤ e.2 ∧ e.2 ≤ 5)
    ∧ ∀ e ∈ (score_wastes s5 r5).confidence,
        e.2 = "Low" ∨ e.2 = "Medium" ∨ e.2 = "High" :=
  c5_score_bounds s5 r5 (by
    intro p hp q hq
    simp only [r5] at hp
    fin_cases hp <;> fin_cases hq <;> norm_num)

/-! ### C10: monotonicity of the defects score in `defect_pct` -/

lemma trueWeight_defects_mono (s : ProcessStep) (qs : List Question) (d1 d2 : ℚ)
    (h : ∀ q ∈ qs, 0 ≤ q.weight) (hd : d1 ≤ d2) :
    trueWeight { s with defect_pct := some d1 } "defects" qs
      ≤ trueWeight { s with defect_pct := some d2 } "defects" qs := by
  unfold trueWeight
  refine List.sum_le_sum ?_
  intro q hq
  unfold resolveQ
  cases hans : s.answers q.id with
  | some v => cases v <;> simp
  | none =>
    simp only
    by_cases h1 : (3 : ℚ) ≤ d1
    · have h2 : (3 : ℚ) ≤ d2 := le_trans h1 hd
      simp [h1, h2]
    · by_cases h2 : (3 : ℚ) ≤ d2 <;> simp [h1, h2, h q hq]

lemma categoryScore_defects_mono (s : ProcessStep) (qs : List Question) (d1 d2 : ℚ)
    (h : ∀ q ∈ qs, 0 ≤ q.weight) (hd : d1 ≤ d2) :
    categoryScore { s with defect_pct := some d1 } "defects" qs
      ≤ categoryScore { s with defect_pct := some d2 } "defects" qs := by
  unfold categoryScore
  refine min_le_min (le_refl 5) (round2_mono ?_)
  exact mul_le_mul_of_nonneg_right (trueWeight_defects_mono s qs d1 d2 h hd)
    (div_nonneg (by norm_num) (le_of_lt (totalWeight_pos qs h)))

/-- C10.  Raising `defect_pct` with every other field held fixed never
lowers the "defects" score: per category configuration directly, and
pairwise across the score lists `score_wastes` returns for the two steps. -/
theorem c10_defects_monotone (s : ProcessStep) (rules : Rules) (qs : List Question)
    (d1 d2 : ℚ) (hw : ∀ p ∈ rules.wastes, ∀ q ∈ p.2, 0 ≤ q.weight)
    (hq : ∀ q ∈ qs, 0 ≤ q.weight) (hd : d1 ≤ d2) :
    categoryScore { s with defect_pct := some d1 } "defects" qs
      ≤ categoryScore { s with defect_pct := some d2 } "defects" qs
    ∧ ∀ pr ∈ ((score_wastes { s with defect_pct := some d1 } rules).scores.zip
          (score_wastes { s with defect_pct := some d2 } rules).scores),
        pr.1.1 = "defects" → pr.1.2 ≤ pr.2.2 := by
  refine ⟨categoryScore_defects_mono s qs d1 d2 hq hd, ?_⟩
  intro pr hpr hname
  simp only [score_wastes, List.zip_map'] at hpr
  obtain ⟨p, hp, rfl⟩ := List.mem_map.1 hpr
  obtain ⟨w', qs'⟩ := p
  dsimp only at hname ⊢
  subst hname
  exact categoryScore_defects_mono s qs' d1 d2 (hw _ hp) hd

/-- Concrete step for the C10 witness. -/
def s10 : ProcessStep := { id := "P1" }

/-- Concrete rules for the C10 witness. -/
def r10 : Rules := ⟨[("defects", [⟨"d1", 1⟩])]⟩

/-- Witness for C10 on `s10`/`r10` with `defect_pct` raised from 2 to 4. -/
theorem c10_witness :
    categoryScore { s10 with defect_pct := some 2 } "defects" [⟨"d1", 1⟩]
      ≤ categoryScore { s10 with defect_pct := some 4 } "defects" [⟨"d1", 1⟩]
    ∧ ∀ pr ∈ ((score_wastes { s10 with defect_pct := some 2 } r10).scores.zip
          (score_wastes { s10 with defect_pct := some 4 } r10).scores),
        pr.1.1 = "defects" → pr.1.2 ≤ pr.2.2 :=
  c10_defects_monotone s10 r10 [⟨"d1", 1⟩] 2 4
    (by intro p hp q hq; simp only [r10] at hp; fin_cases hp; fin_cases hq; norm_num)
    (by intro q hq; fin_cases hq; norm_num)
    (by norm_num)

/-! ### C3: overproduction vs push/pull -/

lemma resolveQ_no_inference (w : String) (hw1 : w ≠ "defects") (hw2 : w ≠ "waiting")
    (hw3 : w ≠ "inventory") (step : ProcessStep) (qid : String)
    (h : step.answers qid = none) : resolveQ w step qid = ⟨false, false, false⟩ := by
  unfold resolveQ
  rw [h]
  simp [hw1, hw2, hw3]

lemma categoryScore_no_answers_no_inference (step : ProcessStep) (w : String)
    (qs : List Question) (hw1 : w ≠ "defects") (hw2 : w ≠ "waiting") (hw3 : w ≠ "inventory")
    (h : ∀ q, step.answers q = none) : categoryScore step w qs = 0 := by
  have htw : trueWeight step w qs = 0 := by
    unfold trueWeight
    refine List.sum_eq_zero ?_
    intro x hx
    obtain ⟨q, hq, rfl⟩ := List.mem_map.1 hx
    rw [resolveQ_no_inference w hw1 hw2 hw3 step q.id (h q.id)]
    simp
  unfold categoryScore
  rw [htw, zero_mul, round2_zero]
  exact min_eq_right (by norm_num)

/-- Concrete push step with no explicit answers, for the C3 counterexample. -/
def s3 : ProcessStep := { id := "P1", push_pull := some "Push" }

/-- Concrete rules with an overproduction category, for the C3 counterexample. -/
def r3 : Rules := ⟨[("overproduction", [⟨"op1", 1⟩])]⟩

/-- C3 counterexample.  A step with `push_pull = "Push"` and no explicit
answers gets overproduction score 0, not a score strictly greater than 0:
the scorer has no push/pull auto-inference branch. -/
theorem c3_counterexample :
    s3.push_pull = some "Push"
    ∧ (score_wastes s3 r3).scores = [("overproduction", 0)] := by
  refine ⟨rfl, ?_⟩
  have h0 : categoryScore s3 "overproduction" [⟨"op1", 1⟩] = 0 :=
    categoryScore_no_answers_no_inference s3 "overproduction" _
      (by simp) (by simp) (by simp) (fun _ => rfl)
  simp [score_wastes, r3, h0]

/-- C3 amended.  Absent explicit answers, the overproduction score is 0
regardless of `push_pull` (so the "Pull" half of the claim holds, and the
"Push" half only holds when an explicitly true answer is supplied, as the
UI does by default for push steps). -/
theorem c3_amended_overproduction (step : ProcessStep) (rules : Rules)
    (qs : List Question) (h : ∀ q, step.answers q = none) :
    categoryScore step "overproduction" qs = 0
    ∧ ∀ pr ∈ (score_wastes step rules).scores, pr.1 = "overproduction" → pr.2 = 0 := by
  refine ⟨categoryScore_no_answers_no_inference step "overproduction" qs
    (by simp) (by simp) (by simp) h, ?_⟩
  intro pr hpr hname
  simp only [score_wastes] at hpr
  obtain ⟨p, hp, rfl⟩ := List.mem_map.1 hpr
  dsimp only at hname ⊢
  rw [hname]
  exact categoryScore_no_answers_no_inference step "overproduction" p.2
    (by simp) (by simp) (by simp) h

/-- Concrete pull step, completing the C3 witness. -/
def s3pull : ProcessStep := { id := "P2", push_pull := some "Pull" }

/-- Witness for the amended C3 on the pull step `s3pull`. -/
theorem c3_witness :
    categoryScore s3pull "overproduction" [⟨"op1", 1⟩] = 0
    ∧ ∀ pr ∈ (score_wastes s3pull r3).scores, pr.1 = "overproduction" → pr.2 = 0 :=
  c3_amended_overproduction s3pull r3 [⟨"op1", 1⟩] (fun _ => rfl)

/-! ### C6: a category with no questions is silently scored -/

/-- Concrete step for C6. -/
def s6 : ProcessStep := { id := "P1" }

/-- Malformed rules for C6: a waste category with no questions. -/
def r6 : Rules := ⟨[("ghost", [])]⟩

/-- C6 (failing input).  Scoring a category configured with no questions
does not fail: `score_wastes` quietly yields score 0 with confidence "Low"
(the zero weight sum is replaced by 1), and `load_rules` is a bare
`yaml.safe_load` with no schema validation, so nothing fails at load time
either. -/
theorem c6_silent_absorption :
    (score_wastes s6 r6).scores = [("ghost", 0)]
    ∧ (score_wastes s6 r6).confidence = [("ghost", "Low")] := by
  constructor
  · have h0 : categoryScore s6 "ghost" [] = 0 :=
      categoryScore_no_answers_no_inference s6 "ghost" []
        (by simp) (by simp) (by simp) (fun _ => rfl)
    simp [score_wastes, r6, h0]
  · simp [score_wastes, r6, categoryConf, measuredCount, answeredCount]

end VSM
